import Mathlib

/-!
Shallow embedding of the StreamDeck / VTube Studio enumeration tool:
the session client (src/vts_client.py), the enumeration driver
(src/core.py, check_models_and_hotkeys) and the persisted id mapping
(src/uuid_manager.py).  The remote application's behaviour is supplied
through explicit oracles; the network commands issued by the code are
recorded in an ordered event trace.
-/

/-- ASCII lower-casing of a string (Python str.lower on the ASCII error
messages compared by the code). -/
def lowerStr (s : String) : String := ⟨s.data.map Char.toLower⟩

/-- Does the pattern match at the head of the character list? -/
def matchesAt : List Char → List Char → Bool
  | [], _ => true
  | _ :: _, [] => false
  | p :: ps, c :: cs => p == c && matchesAt ps cs

/-- Substring occurrence on character lists. -/
def hasSubAux (pat : List Char) : List Char → Bool
  | [] => matchesAt pat []
  | c :: cs => matchesAt pat (c :: cs) || hasSubAux pat cs

/-- Python `pat in s` on strings. -/
def strContains (s pat : String) : Bool := hasSubAux pat.data s.data

/-! ### Session client: the request primitive (vts_client.py, `_req`) -/

instance {ε α : Type} [DecidableEq ε] [DecidableEq α] : DecidableEq (Except ε α) := fun x y =>
  match x, y with
  | .ok a, .ok b =>
    if h : a = b then isTrue (by rw [h]) else isFalse (fun hc => h (Except.ok.inj hc))
  | .error a, .error b =>
    if h : a = b then isTrue (by rw [h]) else isFalse (fun hc => h (Except.error.inj hc))
  | .ok _, .error _ => isFalse (fun hc => Except.noConfusion hc)
  | .error _, .ok _ => isFalse (fun hc => Except.noConfusion hc)

/-- Outcome of one send+receive over the wire, as observed by `_req`. -/
inductive WireOutcome
  | ok (resp : String)
  | apiError (msg : String)
  | closed
deriving DecidableEq

/-- Errors `_req` surfaces to its caller. -/
inductive ReqError
  | remoteError (msg : String)
  | connClosed
deriving DecidableEq

/-- Observable behaviour of one `_req` invocation: its result, the number
of send+receive attempts performed and the number of `_conn()` calls made. -/
structure ReqResult where
  result : Except ReqError String
  attempts : Nat
  reconnects : Nat
deriving DecidableEq

/-- vts_client.VTSAPI._req: if the socket is absent, connect first; send and
receive once; an `APIError` response raises `RuntimeError`; a
`ConnectionClosed` during send or receive reconnects once and retries the
send+receive exactly once, with no exception handler around the retry. -/
def req (wsUp : Bool) (first retry : WireOutcome) : ReqResult :=
  let pre : Nat := if wsUp then 0 else 1
  match first with
  | .ok r => ⟨.ok r, 1, pre⟩
  | .apiError m => ⟨.error (.remoteError m), 1, pre⟩
  | .closed =>
    match retry with
    | .ok r => ⟨.ok r, 2, pre + 1⟩
    | .apiError m => ⟨.error (.remoteError m), 2, pre + 1⟩
    | .closed => ⟨.error .connClosed, 2, pre + 1⟩

/-! ### Session client: authentication (vts_client.py, `auth`) -/

/-- Errors `auth` can raise. -/
inductive AuthError
  | authPending
  | remoteError (msg : String)
  | authFailed
deriving DecidableEq

/-- Observable behaviour of one `auth` invocation: the result and the
list of API requests it sent, in order. -/
structure AuthResult where
  result : Except AuthError Bool
  requestsSent : List String
deriving DecidableEq

/-- vts_client.VTSAPI.auth: sends an AuthenticationTokenRequest; if that
raises a RuntimeError whose message contains "authentication is currently
ongoing", re-raises the pending-auth error; otherwise stores the token and
sends the AuthenticationRequest, failing when the response is empty.
`tokenOutcome` abstracts the token request's outcome and
`authRespNonEmpty` the truthiness of the redemption response. -/
def auth (tokenOutcome : Except String String) (authRespNonEmpty : Bool) : AuthResult :=
  match tokenOutcome with
  | .error m =>
    if strContains m "authentication is currently ongoing" then
      ⟨.error .authPending, ["AuthenticationTokenRequest"]⟩
    else
      ⟨.error (.remoteError m), ["AuthenticationTokenRequest"]⟩
  | .ok _tok =>
    if authRespNonEmpty then
      ⟨.ok true, ["AuthenticationTokenRequest", "AuthenticationRequest"]⟩
    else
      ⟨.error .authFailed, ["AuthenticationTokenRequest", "AuthenticationRequest"]⟩

/-! ### Session client: model loading (vts_client.py, `load_model`) -/

/-- Per-attempt behaviour of the remote during `load_model`:
`ok clearOk` means the ModelLoadRequest was answered and
`force_clear_model_state()` then returned `clearOk`; `timeout` means the
8s `wait_for` expired, with `stateOk` the result of the `check_vts_state`
probe consulted on non-final attempts; `runtimeErr` is a RuntimeError
(an APIError message) from `_req`; `otherErr` is any other exception. -/
inductive LoadAttemptOutcome
  | ok (clearOk : Bool)
  | timeout (stateOk : Bool)
  | runtimeErr (msg : String)
  | otherErr (msg : String)
deriving DecidableEq

/-- Result of `load_model`: a normal return or a raised error message. -/
inductive LoadResult
  | success
  | failure (msg : String)
deriving DecidableEq

/-- Network commands and operator interactions, in program order. -/
inductive Event
  | stateCheck (ok : Bool)
  | loadCmd (idx : Nat)
  | infoProbe (ok : Bool)
  | loadDone (idx : Nat)
  | infoFetch (idx : Nat)
  | hotkeyFetch (idx : Nat)
  | waitUser
  | close
deriving DecidableEq

/-- The cooldown-class test of vts_client.load_model's RuntimeError handler. -/
def cooldownClass (msg : String) : Bool :=
  strContains msg "Cannot currently change model" || strContains msg "model load cooldown"

/-- The retry loop of vts_client.VTSAPI.load_model (attempt = loop index,
fuel = max_retries - attempt, so the last attempt has fuel 1). -/
def loadModelGo (idx : Nat) (outcomes : Nat → LoadAttemptOutcome) :
    Nat → Nat → LoadResult × List Event
  | _, 0 => (.failure "", [])
  | attempt, fuel + 1 =>
    let isLast : Bool := fuel == 0
    match outcomes attempt with
    | .ok clearOk =>
      if clearOk then
        (.success, [.loadCmd idx, .infoProbe true, .loadDone idx])
      else if !isLast then
        ((loadModelGo idx outcomes (attempt + 1) fuel).1,
         .loadCmd idx :: .infoProbe false :: (loadModelGo idx outcomes (attempt + 1) fuel).2)
      else
        (.failure "模型加载后检测到错误对话框", [.loadCmd idx, .infoProbe false])
    | .timeout stOk =>
      if !isLast then
        if !stOk then
          (.failure "VTS被错误对话框阻塞", [.loadCmd idx, .stateCheck false])
        else
          ((loadModelGo idx outcomes (attempt + 1) fuel).1,
           .loadCmd idx :: .stateCheck true :: (loadModelGo idx outcomes (attempt + 1) fuel).2)
      else
        (.failure "模型加载超时", [.loadCmd idx])
    | .runtimeErr msg =>
      if cooldownClass msg && !isLast then
        ((loadModelGo idx outcomes (attempt + 1) fuel).1,
         .loadCmd idx :: (loadModelGo idx outcomes (attempt + 1) fuel).2)
      else
        (.failure msg, [.loadCmd idx])
    | .otherErr msg =>
      if !isLast then
        ((loadModelGo idx outcomes (attempt + 1) fuel).1,
         .loadCmd idx :: (loadModelGo idx outcomes (attempt + 1) fuel).2)
      else
        (.failure msg, [.loadCmd idx])

/-- Current-model info as used by the driver (modelFileName field). -/
structure ModelInfo where
  modelFileName : Option String
deriving DecidableEq

/-- Hotkey descriptor fields projected by the driver. -/
structure Hotkey where
  hotkeyID : String
  name : String
  type : String
deriving DecidableEq

/-- Outcome of a `wait_for`-guarded fetch in the driver. -/
inductive FetchOutcome (α : Type)
  | ok (v : α)
  | timeout
  | err (msg : String)
deriving DecidableEq

/-- Remote behaviour while one model is processed. -/
structure ModelOracle where
  periodicStateOk : Bool
  loadStateOk : Bool
  loadOutcomes : Nat → LoadAttemptOutcome
  infoOutcome : FetchOutcome ModelInfo
  hotkeysOutcome : FetchOutcome (List Hotkey)
  recheckStateOk : Bool

/-- vts_client.VTSAPI.load_model for model #idx: a `check_vts_state`
pre-check (failure raises without sending any load request), then up to
3 attempts. -/
def load_model (idx : Nat) (o : ModelOracle) : LoadResult × List Event :=
  if !o.loadStateOk then
    (.failure "VTS状态异常，可能有错误对话框阻塞", [.stateCheck false])
  else
    ((loadModelGo idx o.loadOutcomes 0 3).1,
     .stateCheck true :: (loadModelGo idx o.loadOutcomes 0 3).2)

/-- Count of ModelLoadRequest commands in a trace. -/
def isLoadCmd : Event → Bool
  | .loadCmd _ => true
  | _ => false

def countLoadCmds (evs : List Event) : Nat := (evs.filter isLoadCmd).length

/-! ### Enumeration driver (core.py, `check_models_and_hotkeys`) -/

/-- Model descriptor fields the driver reads. -/
structure ModelDesc where
  modelName : String
  modelID : String
deriving DecidableEq

/-- One run-result entry accumulated by the driver. -/
structure Entry where
  modelName : String
  modelID : String
  icon : String
  hotkeys : List Hotkey
deriving DecidableEq

/-- config.DEFAULT_ICON. -/
def DEFAULT_ICON : String := "default.png"

/-- The placeholder entry recorded in the asyncio.TimeoutError handler of
core.check_models_and_hotkeys: skip-marker appended to the name, same
modelID, default icon, empty hotkey list. -/
def placeholder (m : ModelDesc) : Entry :=
  ⟨m.modelName ++ " (跳过)", m.modelID, DEFAULT_ICON, []⟩

/-- Events of the every-5-models health check at the top of the loop body
(`idx % 5 == 0 and idx > 0`); on failure it waits only in interactive mode. -/
def periodicEvents (interactive : Bool) (idx : Nat) (ok : Bool) : List Event :=
  if idx % 5 == 0 && idx != 0 then
    .stateCheck ok :: (if !ok && interactive then [.waitUser] else [])
  else []

/-- Events of the generic exception handler of the per-model loop in
core.check_models_and_hotkeys, classifying the error message: the
dialog branch calls wait_for_user_input unconditionally and then
re-checks the VTS state; the cooldown branch and the unknown branch
wait only in interactive mode. -/
def classifyFailEvents (interactive : Bool) (recheckOk : Bool) (msg : String) : List Event :=
  if strContains msg "错误对话框" || strContains msg "VTS状态异常" then
    [.waitUser, .stateCheck recheckOk]
  else if strContains (lowerStr msg) "already loading"
      || strContains (lowerStr msg) "cannot currently change" then
    (if interactive then [.waitUser] else [])
  else
    (if interactive then [.waitUser] else [])

/-- Events of the asyncio.TimeoutError handler (waits only in
interactive mode, then records the placeholder). -/
def timeoutEvents (interactive : Bool) : List Event :=
  if interactive then [.waitUser] else []

/-- One iteration of the per-model loop of core.check_models_and_hotkeys:
periodic check, load_model, then the verification fetches
(current_model_info and hotkeys, each under wait_for), ending either in a
full entry, a placeholder (timeout handler only) or no entry at all
(generic exception handler).  Returns (entries appended, failed_models
increment, events in order). -/
def processModel (interactive : Bool) (findIcon : Option String → String → String)
    (idx : Nat) (m : ModelDesc) (o : ModelOracle) : List Entry × Nat × List Event :=
  let pe := periodicEvents interactive idx o.periodicStateOk
  match load_model idx o with
  | (.failure msg, levs) =>
    ([], 1, pe ++ levs ++ classifyFailEvents interactive o.recheckStateOk msg)
  | (.success, levs) =>
    match o.infoOutcome with
    | .timeout =>
      ([placeholder m], 1, pe ++ levs ++ [.infoFetch idx] ++ timeoutEvents interactive)
    | .err msg =>
      ([], 1, pe ++ levs ++ [.infoFetch idx] ++ classifyFailEvents interactive o.recheckStateOk msg)
    | .ok info =>
      match o.hotkeysOutcome with
      | .timeout =>
        ([placeholder m], 1,
         pe ++ levs ++ [.infoFetch idx, .hotkeyFetch idx] ++ timeoutEvents interactive)
      | .err msg =>
        ([], 1,
         pe ++ levs ++ [.infoFetch idx, .hotkeyFetch idx]
            ++ classifyFailEvents interactive o.recheckStateOk msg)
      | .ok hks =>
        ([⟨m.modelName, m.modelID, findIcon info.modelFileName m.modelName, hks⟩], 0,
         pe ++ levs ++ [.infoFetch idx, .hotkeyFetch idx])

/-- The whole per-model loop, threading the enumerate index. -/
def runModels (interactive : Bool) (findIcon : Option String → String → String)
    (oracles : Nat → ModelOracle) : Nat → List ModelDesc → List Entry × Nat × List Event
  | _, [] => ([], 0, [])
  | idx, m :: rest =>
    ((processModel interactive findIcon idx m (oracles idx)).1
       ++ (runModels interactive findIcon oracles (idx + 1) rest).1,
     (processModel interactive findIcon idx m (oracles idx)).2.1
       + (runModels interactive findIcon oracles (idx + 1) rest).2.1,
     (processModel interactive findIcon idx m (oracles idx)).2.2
       ++ (runModels interactive findIcon oracles (idx + 1) rest).2.2)

/-- Environment of one driver run. -/
structure DriverInput where
  selected_ids : Option (List String)
  interactive : Bool
  rootFound : Bool
  authOutcome : Except String Bool
  initialStateOk : Bool
  models : List ModelDesc
  oracles : Nat → ModelOracle
  findIcon : Option String → String → String

/-- Observable behaviour of one driver run: the Python return value, the
event trace, the failed_models counter and the printed statistics. -/
structure DriverOutput where
  returnValue : Option (List Entry)
  trace : List Event
  failedCount : Nat
  totalModels : Nat
  printedSuccessful : Int

/-- The model-list restriction applied when selected_ids is supplied
(`[m for m in models if m.get("modelID") in selected_ids]`). -/
def filteredModels (I : DriverInput) : List ModelDesc :=
  match I.selected_ids with
  | none => I.models
  | some sel => I.models.filter (fun m => sel.contains m.modelID)

/-- core.check_models_and_hotkeys: find the model root (None on failure),
authenticate (an exception closes the client and returns None; a falsy
return returns None), run the initial state check, fetch and optionally
filter the model list, process every model in order, close the client,
print the statistics (successful = len(results) - failed_models) and
return the accumulated result list. -/
def check_models_and_hotkeys (I : DriverInput) : DriverOutput :=
  if !I.rootFound then ⟨none, [], 0, 0, 0⟩
  else
    match I.authOutcome with
    | .error _ => ⟨none, [.close], 0, 0, 0⟩
    | .ok false => ⟨none, [], 0, 0, 0⟩
    | .ok true =>
      let ms := filteredModels I
      ⟨some (runModels I.interactive I.findIcon I.oracles 0 ms).1,
       .stateCheck I.initialStateOk :: (runModels I.interactive I.findIcon I.oracles 0 ms).2.2
         ++ [.close],
       (runModels I.interactive I.findIcon I.oracles 0 ms).2.1,
       ms.length,
       ((runModels I.interactive I.findIcon I.oracles 0 ms).1.length : Int)
         - ((runModels I.interactive I.findIcon I.oracles 0 ms).2.1 : Int)⟩

/-! ### Persisted id mapping (uuid_manager.py) -/

/-- Contents of the UUID_FILE as far as the code distinguishes them. -/
inductive UuidFileState
  | absent
  | invalid
  | oldFormat (entries : List (String × String))
  | newFormat (home : String) (models : List (String × String))
deriving DecidableEq

/-- Filesystem state plus the index of the next uuid4() value drawn from
the generator stream. -/
structure FsState where
  file : UuidFileState
  counter : Nat
deriving DecidableEq

/-- uuid_manager.load_or_generate_uuids: parse the file when present; an
object without "home"/"models" keys is legacy format and is converted in
memory (the Python dict.get default draws a fresh uuid eagerly even when
the "Home" key exists) but not written back; a missing or unparseable
file causes a fresh mapping to be generated and written.  Returns
(home, models) plus the updated state. -/
def load_or_generate_uuids (gen : Nat → String) (s : FsState) :
    (String × List (String × String)) × FsState :=
  match s.file with
  | .newFormat h ms => ((h, ms), s)
  | .oldFormat es =>
    ((((es.lookup "Home").getD (gen s.counter)),
      es.filter (fun kv => kv.1 != "Home")),
     ⟨s.file, s.counter + 1⟩)
  | .absent => ((gen s.counter, []), ⟨.newFormat (gen s.counter) [], s.counter + 1⟩)
  | .invalid => ((gen s.counter, []), ⟨.newFormat (gen s.counter) [], s.counter + 1⟩)

/-- uuid_manager.get_model_uuid: look the name up in the loaded mapping;
if absent, draw a fresh uuid, store it and persist the whole mapping in
the new format; return the mapped id. -/
def get_model_uuid (gen : Nat → String) (model_name : String) (s : FsState) :
    String × FsState :=
  match load_or_generate_uuids gen s with
  | ((h, ms), s1) =>
    match ms.lookup model_name with
    | some u => (u, s1)
    | none => (gen s1.counter, ⟨.newFormat h (ms ++ [(model_name, gen s1.counter)]), s1.counter + 1⟩)


/-! ### Shared helper lemmas -/

/-- Appending a nonempty string changes a string. -/
theorem append_ne_self (a b : String) (hb : b.data ≠ []) : a ++ b ≠ a := by
  intro h
  have hd : (a ++ b).data = a.data ++ b.data := rfl
  have hlen : (a ++ b).data.length = a.data.length := by rw [h]
  rw [hd, List.length_append] at hlen
  have : b.data.length = 0 := by omega
  exact hb (List.length_eq_zero.mp this)

/-- Looking a key up after appending a binding for a previously unbound key. -/
theorem lookup_append_new (ms : List (String × String)) (k u : String)
    (h : ms.lookup k = none) : (ms ++ [(k, u)]).lookup k = some u := by
  induction ms with
  | nil => simp [List.lookup]
  | cons kv rest ih =>
    rw [List.cons_append]
    cases hk : (k == kv.1) with
    | true =>
      rw [List.lookup, hk] at h
      exact Option.noConfusion h
    | false =>
      rw [List.lookup, hk] at h ⊢
      exact ih h

/-! ### Claim theorems: session client -/

/-- C6: if the connection is found closed by the peer during the
send+receive of `_req`, the client reconnects exactly once and retries the
send+receive exactly one more time (two attempts in total); whatever the
single retry produces — a response, a remote error, or another closed
connection — is surfaced to the caller with no further reconnect. -/
theorem C6_reconnect_retry_once (retry : WireOutcome) :
    (req true .closed retry).reconnects = 1 ∧
    (req true .closed retry).attempts = 2 ∧
    (req true .closed retry).result = (match retry with
      | .ok r => .ok r
      | .apiError m => .error (.remoteError m)
      | .closed => .error .connClosed) := by
  cases retry <;> simp [req]

/-- C7: when the remote reports that authentication is already in progress
during the token request, `auth` raises the pending-auth error and issues
zero further network requests in that invocation: the request list is
exactly the token request, with no AuthenticationRequest after it. -/
theorem C7_auth_pending_stops (m : String) (b : Bool)
    (h : strContains m "authentication is currently ongoing" = true) :
    (auth (.error m) b).result = .error .authPending ∧
    (auth (.error m) b).requestsSent = ["AuthenticationTokenRequest"] := by
  simp [auth, h]

/-- Witness for C7 at a concrete remote error message. -/
theorem C7_auth_pending_stops_witness :
    strContains "Error: authentication is currently ongoing"
        "authentication is currently ongoing" = true ∧
    ((auth (.error "Error: authentication is currently ongoing") true).result
        = .error .authPending ∧
      (auth (.error "Error: authentication is currently ongoing") true).requestsSent
        = ["AuthenticationTokenRequest"]) :=
  ⟨by decide, C7_auth_pending_stops "Error: authentication is currently ongoing" true (by decide)⟩

/-! ### Claim theorems: persisted id mapping -/

/-- C9: two successive `get_model_uuid` calls for the same model name
against the same persisted mapping return the identical id: the first
call either returns the stored id or generates and persists a fresh one,
and the second call returns that very id without generating a duplicate. -/
theorem C9_get_model_uuid_idempotent (gen : Nat → String) (name : String) (s : FsState) :
    (get_model_uuid gen name ((get_model_uuid gen name s).2)).1
      = (get_model_uuid gen name s).1 := by
  obtain ⟨file, c⟩ := s
  cases file with
  | newFormat h ms =>
    cases hlk : ms.lookup name with
    | some u => simp [get_model_uuid, load_or_generate_uuids, hlk]
    | none =>
      simp [get_model_uuid, load_or_generate_uuids, hlk,
        lookup_append_new ms name _ hlk]
  | oldFormat es =>
    cases hlk : (es.filter (fun kv => kv.1 != "Home")).lookup name with
    | some u => simp [get_model_uuid, load_or_generate_uuids, hlk]
    | none =>
      simp [get_model_uuid, load_or_generate_uuids, hlk,
        lookup_append_new _ name _ hlk]
  | absent => simp [get_model_uuid, load_or_generate_uuids, List.lookup]
  | invalid => simp [get_model_uuid, load_or_generate_uuids, List.lookup]

/-! ### Claim theorems: enumeration driver, concrete runs -/

/-- C1 oracle: the remote answers every load attempt with the cooldown
error. -/
def c1Oracle : ModelOracle :=
  ⟨true, true, fun _ => .runtimeErr "Cannot currently change model", .ok ⟨none⟩, .ok [], true⟩

/-- C1 input: a completed non-interactive run over one model that always
hits the cooldown error. -/
def c1Input : DriverInput :=
  ⟨none, false, true, .ok true, true, [⟨"ModelA", "id-a"⟩], fun _ => c1Oracle,
   fun _ _ => DEFAULT_ICON⟩

/-- C1 (code bug): a completed run over this 1-model list returns an
empty result list — the failed model gets no placeholder entry, because
only the asyncio.TimeoutError handler records placeholders, so the run
does not return exactly N entries; the printed success count
len(results) - failed_models even evaluates to -1 here. -/
theorem C1_missing_placeholder_entry :
    c1Input.models.length = 1 ∧
    (check_models_and_hotkeys c1Input).returnValue = some [] ∧
    (check_models_and_hotkeys c1Input).failedCount = 1 ∧
    (check_models_and_hotkeys c1Input).printedSuccessful = -1 := by decide

/-- C4 oracle: the liveness probe at the top of load_model fails. -/
def c4Oracle : ModelOracle :=
  ⟨true, false, fun _ => .ok true, .ok ⟨none⟩, .ok [], true⟩

/-- C4 input: one model whose pre-load liveness probe returns false. -/
def c4Input : DriverInput :=
  ⟨none, true, true, .ok true, true, [⟨"ModelB", "id-b"⟩], fun _ => c4Oracle,
   fun _ _ => DEFAULT_ICON⟩

/-- C4 (code bug): when the liveness probe fails immediately before a
model's load, no load request is issued and the run completes without
raising — as the claim says — but the model gets no placeholder entry at
all: the returned list is empty instead of holding a default-icon,
empty-hotkey entry. -/
theorem C4_probe_fail_records_no_entry :
    countLoadCmds (check_models_and_hotkeys c4Input).trace = 0 ∧
    (check_models_and_hotkeys c4Input).returnValue = some [] ∧
    (check_models_and_hotkeys c4Input).failedCount = 1 := by decide

/-- C5 oracle: the pre-load liveness probe fails, producing a
blocked-by-dialog class error. -/
def c5Oracle : ModelOracle :=
  ⟨true, false, fun _ => .ok true, .ok ⟨none⟩, .ok [], true⟩

/-- C5 input: a non-interactive run over one model hitting the
blocked-by-dialog class failure. -/
def c5Input : DriverInput :=
  ⟨none, false, true, .ok true, true, [⟨"ModelC", "id-c"⟩], fun _ => c5Oracle,
   fun _ _ => DEFAULT_ICON⟩

/-- C5 (code bug): in a non-interactive run a blocked-by-dialog class
failure still blocks on human input — the dialog branch of the generic
exception handler calls wait_for_user_input unconditionally, so the trace
contains a blocking operator prompt although interactive = false. -/
theorem C5_noninteractive_still_blocks :
    c5Input.interactive = false ∧
    Event.waitUser ∈ (check_models_and_hotkeys c5Input).trace := by decide

/-- C3 oracle: the cooldown error on all three load attempts. -/
def c3Oracle : ModelOracle :=
  ⟨true, true, fun _ => .runtimeErr "Cannot currently change model", .ok ⟨none⟩, .ok [], true⟩

/-- C3 counterexample input: a completed run over one all-cooldown model. -/
def c3Input : DriverInput :=
  ⟨none, false, true, .ok true, true, [⟨"ModelD", "id-d"⟩], fun _ => c3Oracle,
   fun _ _ => DEFAULT_ICON⟩

/-- C3 counterexample: with the cooldown error on all three attempts the
run does continue and counts the model as failed, but no placeholder
entry is recorded — the returned list is empty although one model was
attempted, refuting the "placeholder entry" part of the claim. -/
theorem C3_counterexample_no_placeholder :
    (check_models_and_hotkeys c3Input).returnValue = some [] ∧
    c3Input.models.length = 1 ∧
    (check_models_and_hotkeys c3Input).failedCount = 1 := by decide

/-- C8 oracle: the cooldown error on all three load attempts. -/
def c8Oracle : ModelOracle :=
  ⟨true, true, fun _ => .runtimeErr "Cannot currently change model", .ok ⟨none⟩, .ok [], true⟩

/-- C8 input A: a completed run over an empty model list. -/
def c8InputA : DriverInput :=
  ⟨none, false, true, .ok true, true, [], fun _ => c8Oracle, fun _ _ => DEFAULT_ICON⟩

/-- C8 input B: a completed run over one model that fails with cooldown. -/
def c8InputB : DriverInput :=
  ⟨none, false, true, .ok true, true, [⟨"ModelE", "id-e"⟩], fun _ => c8Oracle,
   fun _ _ => DEFAULT_ICON⟩

/-- C8 counterexample: two completed runs with different skipped counts
return identical values, so the succeeded/skipped counts are not part of
what check_models_and_hotkeys returns to its caller — they are only
printed. -/
theorem C8_counterexample_counts_not_returned :
    (check_models_and_hotkeys c8InputA).returnValue
      = (check_models_and_hotkeys c8InputB).returnValue ∧
    (check_models_and_hotkeys c8InputA).failedCount
      ≠ (check_models_and_hotkeys c8InputB).failedCount := by decide


/-! ### Event-shape lemmas for the load loop -/

/-- Every event emitted by the load retry loop for model #idx is a load
command or load completion tagged idx, or an untagged probe/state check. -/
theorem loadModelGo_events_shape (idx : Nat) (outs : Nat → LoadAttemptOutcome) :
    ∀ fuel a, ∀ e ∈ (loadModelGo idx outs a fuel).2,
      e = .loadCmd idx ∨ e = .loadDone idx ∨ (∃ b, e = .infoProbe b) ∨
      (∃ b, e = .stateCheck b) := by
  intro fuel
  induction fuel with
  | zero =>
    intro a e he
    simp [loadModelGo] at he
  | succ fuel ih =>
    intro a
    simp only [loadModelGo]
    cases outs a with
    | ok clearOk =>
      dsimp only
      split_ifs
      · intro e he
        fin_cases he
        all_goals simp
      · intro e he
        rcases List.mem_cons.mp he with rfl | he
        · simp
        rcases List.mem_cons.mp he with rfl | he
        · simp
        exact ih _ e he
      · intro e he
        fin_cases he
        all_goals simp
    | timeout stOk =>
      dsimp only
      split_ifs
      · intro e he
        fin_cases he
        all_goals simp
      · intro e he
        rcases List.mem_cons.mp he with rfl | he
        · simp
        rcases List.mem_cons.mp he with rfl | he
        · simp
        exact ih _ e he
      · intro e he
        fin_cases he
        all_goals simp
    | runtimeErr msg =>
      dsimp only
      split_ifs
      · intro e he
        rcases List.mem_cons.mp he with rfl | he
        · simp
        exact ih _ e he
      · intro e he
        fin_cases he
        all_goals simp
    | otherErr msg =>
      dsimp only
      split_ifs
      · intro e he
        rcases List.mem_cons.mp he with rfl | he
        · simp
        exact ih _ e he
      · intro e he
        fin_cases he
        all_goals simp

/-- A successful load loop's event list ends with the load completion. -/
theorem loadModelGo_success_shape (idx : Nat) (outs : Nat → LoadAttemptOutcome) :
    ∀ fuel a, (loadModelGo idx outs a fuel).1 = .success →
      ∃ L, (loadModelGo idx outs a fuel).2 = L ++ [.loadDone idx] := by
  intro fuel
  induction fuel with
  | zero =>
    intro a h
    simp [loadModelGo] at h
  | succ fuel ih =>
    intro a
    simp only [loadModelGo]
    cases outs a with
    | ok clearOk =>
      dsimp only
      split_ifs
      · intro _h
        exact ⟨[.loadCmd idx, .infoProbe true], rfl⟩
      · intro h
        obtain ⟨L, hL⟩ := ih _ h
        exact ⟨.loadCmd idx :: .infoProbe false :: L, by simp [hL]⟩
      · intro h
        simp at h
    | timeout stOk =>
      dsimp only
      split_ifs
      · intro h; simp at h
      · intro h
        obtain ⟨L, hL⟩ := ih _ h
        exact ⟨.loadCmd idx :: .stateCheck true :: L, by simp [hL]⟩
      · intro h; simp at h
    | runtimeErr msg =>
      dsimp only
      split_ifs
      · intro h
        obtain ⟨L, hL⟩ := ih _ h
        exact ⟨.loadCmd idx :: L, by simp [hL]⟩
      · intro h; simp at h
    | otherErr msg =>
      dsimp only
      split_ifs
      · intro h
        obtain ⟨L, hL⟩ := ih _ h
        exact ⟨.loadCmd idx :: L, by simp [hL]⟩
      · intro h; simp at h

/-! ### Shape lemmas lifted to load_model and the driver components -/

/-- Every event of load_model is a tagged load command/completion or an
untagged probe/state check. -/
theorem load_model_events_shape (idx : Nat) (o : ModelOracle) :
    ∀ e ∈ (load_model idx o).2,
      e = .loadCmd idx ∨ e = .loadDone idx ∨ (∃ b, e = .infoProbe b) ∨
      (∃ b, e = .stateCheck b) := by
  intro e he
  unfold load_model at he
  split_ifs at he
  · simp only [List.mem_singleton] at he
    subst he
    exact Or.inr (Or.inr (Or.inr ⟨false, rfl⟩))
  · rcases List.mem_cons.mp he with rfl | he
    · exact Or.inr (Or.inr (Or.inr ⟨true, rfl⟩))
    · exact loadModelGo_events_shape idx o.loadOutcomes 3 0 e he

/-- A successful load_model run's event list ends with the completion. -/
theorem load_model_success_shape (idx : Nat) (o : ModelOracle)
    (h : (load_model idx o).1 = .success) :
    ∃ L, (load_model idx o).2 = L ++ [.loadDone idx] := by
  unfold load_model at h ⊢
  split_ifs at h ⊢
  obtain ⟨L, hL⟩ := loadModelGo_success_shape idx o.loadOutcomes 3 0 h
  exact ⟨.stateCheck true :: L, by simp [hL]⟩

/-- The periodic health check emits only state checks and operator waits. -/
theorem periodicEvents_shape (i : Bool) (idx : Nat) (ok : Bool) :
    ∀ e ∈ periodicEvents i idx ok, (∃ b, e = Event.stateCheck b) ∨ e = Event.waitUser := by
  intro e he
  unfold periodicEvents at he
  split_ifs at he
  · rcases List.mem_cons.mp he with rfl | he
    · exact Or.inl ⟨ok, rfl⟩
    · simp only [List.mem_singleton] at he
      subst he
      exact Or.inr rfl
  · rcases List.mem_cons.mp he with rfl | he
    · exact Or.inl ⟨ok, rfl⟩
    · simp at he
  · simp at he

/-- The generic exception handler emits only operator waits and state
checks. -/
theorem classifyFailEvents_shape (i rc : Bool) (msg : String) :
    ∀ e ∈ classifyFailEvents i rc msg, e = Event.waitUser ∨ (∃ b, e = Event.stateCheck b) := by
  intro e he
  unfold classifyFailEvents at he
  split_ifs at he
  · rcases List.mem_cons.mp he with rfl | he
    · exact Or.inl rfl
    · simp only [List.mem_singleton] at he
      subst he
      exact Or.inr ⟨rc, rfl⟩
  · simp only [List.mem_singleton] at he
    subst he
    exact Or.inl rfl
  · simp at he
  · simp only [List.mem_singleton] at he
    subst he
    exact Or.inl rfl
  · simp at he

/-- The timeout handler emits only an optional operator wait. -/
theorem timeoutEvents_shape (i : Bool) :
    ∀ e ∈ timeoutEvents i, e = Event.waitUser := by
  intro e he
  unfold timeoutEvents at he
  split_ifs at he
  · simpa using he
  · simp at he

/-! ### Per-model block lemmas -/

/-- The kinds of events one model's block may contain: everything tagged
with an index is tagged with this model's index. -/
def BlockEvent (idx : Nat) (e : Event) : Prop :=
  e = .loadCmd idx ∨ e = .loadDone idx ∨ e = .infoFetch idx ∨ e = .hotkeyFetch idx ∨
  (∃ b, e = .infoProbe b) ∨ (∃ b, e = .stateCheck b) ∨ e = .waitUser

/-- Every event of one model's block is a block event of that model. -/
theorem processModel_events_shape (i : Bool) (fi : Option String → String → String)
    (idx : Nat) (m : ModelDesc) (o : ModelOracle) :
    ∀ e ∈ (processModel i fi idx m o).2.2, BlockEvent idx e := by
  have hpe : ∀ e ∈ periodicEvents i idx o.periodicStateOk, BlockEvent idx e := by
    intro e he
    rcases periodicEvents_shape i idx o.periodicStateOk e he with ⟨b, rfl⟩ | rfl
    · exact Or.inr (Or.inr (Or.inr (Or.inr (Or.inr (Or.inl ⟨b, rfl⟩)))))
    · exact Or.inr (Or.inr (Or.inr (Or.inr (Or.inr (Or.inr rfl)))))
  have hload : ∀ e ∈ (load_model idx o).2, BlockEvent idx e := by
    intro e he
    rcases load_model_events_shape idx o e he with rfl | rfl | ⟨b, rfl⟩ | ⟨b, rfl⟩
    · exact Or.inl rfl
    · exact Or.inr (Or.inl rfl)
    · exact Or.inr (Or.inr (Or.inr (Or.inr (Or.inl ⟨b, rfl⟩))))
    · exact Or.inr (Or.inr (Or.inr (Or.inr (Or.inr (Or.inl ⟨b, rfl⟩)))))
  have hcl : ∀ msg, ∀ e ∈ classifyFailEvents i o.recheckStateOk msg, BlockEvent idx e := by
    intro msg e he
    rcases classifyFailEvents_shape i o.recheckStateOk msg e he with rfl | ⟨b, rfl⟩
    · exact Or.inr (Or.inr (Or.inr (Or.inr (Or.inr (Or.inr rfl)))))
    · exact Or.inr (Or.inr (Or.inr (Or.inr (Or.inr (Or.inl ⟨b, rfl⟩)))))
  have hto : ∀ e ∈ timeoutEvents i, BlockEvent idx e := by
    intro e he
    rw [timeoutEvents_shape i e he]
    exact Or.inr (Or.inr (Or.inr (Or.inr (Or.inr (Or.inr rfl)))))
  have hifetch : ∀ e ∈ [Event.infoFetch idx], BlockEvent idx e := by
    intro e he
    simp only [List.mem_singleton] at he
    subst he
    exact Or.inr (Or.inr (Or.inl rfl))
  have hboth : ∀ e ∈ [Event.infoFetch idx, Event.hotkeyFetch idx], BlockEvent idx e := by
    intro e he
    rcases List.mem_cons.mp he with rfl | he
    · exact Or.inr (Or.inr (Or.inl rfl))
    · simp only [List.mem_singleton] at he
      subst he
      exact Or.inr (Or.inr (Or.inr (Or.inl rfl)))
  unfold processModel
  rcases hl : load_model idx o with ⟨r, levs⟩
  have hlev : ∀ e ∈ levs, BlockEvent idx e := by
    intro e he
    exact hload e (by rw [hl]; exact he)
  cases r with
  | failure msg =>
    dsimp only
    exact List.forall_mem_append.mpr ⟨List.forall_mem_append.mpr ⟨hpe, hlev⟩, hcl msg⟩
  | success =>
    cases o.infoOutcome with
    | timeout =>
      dsimp only
      exact List.forall_mem_append.mpr
        ⟨List.forall_mem_append.mpr ⟨List.forall_mem_append.mpr ⟨hpe, hlev⟩, hifetch⟩, hto⟩
    | err msg =>
      dsimp only
      exact List.forall_mem_append.mpr
        ⟨List.forall_mem_append.mpr ⟨List.forall_mem_append.mpr ⟨hpe, hlev⟩, hifetch⟩, hcl msg⟩
    | ok info =>
      cases o.hotkeysOutcome with
      | timeout =>
        dsimp only
        exact List.forall_mem_append.mpr
          ⟨List.forall_mem_append.mpr ⟨List.forall_mem_append.mpr ⟨hpe, hlev⟩, hboth⟩, hto⟩
      | err msg =>
        dsimp only
        exact List.forall_mem_append.mpr
          ⟨List.forall_mem_append.mpr ⟨List.forall_mem_append.mpr ⟨hpe, hlev⟩, hboth⟩, hcl msg⟩
      | ok hks =>
        dsimp only
        exact List.forall_mem_append.mpr ⟨List.forall_mem_append.mpr ⟨hpe, hlev⟩, hboth⟩

/-- Load commands inside a block carry that block's model index. -/
theorem processModel_loadCmd_tag (i : Bool) (fi : Option String → String → String)
    (idx : Nat) (m : ModelDesc) (o : ModelOracle) :
    ∀ e ∈ (processModel i fi idx m o).2.2, ∀ j, e = Event.loadCmd j → j = idx := by
  intro e he j hj
  subst hj
  rcases processModel_events_shape i fi idx m o _ he with h | h | h | h | ⟨b, h⟩ | ⟨b, h⟩ | h
  · exact Event.loadCmd.inj h
  all_goals exact absurd h (by simp)

/-- Hotkey fetches inside a block carry that block's model index. -/
theorem processModel_hotkeyFetch_tag (i : Bool) (fi : Option String → String → String)
    (idx : Nat) (m : ModelDesc) (o : ModelOracle) :
    ∀ j, Event.hotkeyFetch j ∈ (processModel i fi idx m o).2.2 → j = idx := by
  intro j he
  rcases processModel_events_shape i fi idx m o _ he with h | h | h | h | ⟨b, h⟩ | ⟨b, h⟩ | h
  · exact absurd h (by simp)
  · exact absurd h (by simp)
  · exact absurd h (by simp)
  · exact Event.hotkeyFetch.inj h
  all_goals exact absurd h (by simp)

/-- If a block contains the hotkey fetch for its model, the fetch sits
immediately after that model's load completion (with only the info fetch
in between), and every load command before it belongs to this model. -/
theorem processModel_window (i : Bool) (fi : Option String → String → String)
    (idx : Nat) (m : ModelDesc) (o : ModelOracle)
    (h : Event.hotkeyFetch idx ∈ (processModel i fi idx m o).2.2) :
    ∃ A C, (processModel i fi idx m o).2.2
        = A ++ Event.loadDone idx :: Event.infoFetch idx :: Event.hotkeyFetch idx :: C
      ∧ ∀ e ∈ A, ∀ j, e = Event.loadCmd j → j = idx := by
  have hnope : Event.hotkeyFetch idx ∉ periodicEvents i idx o.periodicStateOk := by
    intro hmem
    rcases periodicEvents_shape i idx o.periodicStateOk _ hmem with ⟨b, hb⟩ | hb <;> simp at hb
  have hnocl : ∀ msg, Event.hotkeyFetch idx ∉ classifyFailEvents i o.recheckStateOk msg := by
    intro msg hmem
    rcases classifyFailEvents_shape i o.recheckStateOk msg _ hmem with hb | ⟨b, hb⟩ <;> simp at hb
  have hnoto : Event.hotkeyFetch idx ∉ timeoutEvents i := by
    intro hmem
    have hb := timeoutEvents_shape i _ hmem
    simp at hb
  have hpetag : ∀ e ∈ periodicEvents i idx o.periodicStateOk,
      ∀ j, e = Event.loadCmd j → j = idx := by
    intro e he j hj
    subst hj
    rcases periodicEvents_shape i idx o.periodicStateOk _ he with ⟨b, hb⟩ | hb <;>
      exact absurd hb (by simp)
  unfold processModel at h ⊢
  rcases hl : load_model idx o with ⟨r, levs⟩
  rw [hl] at h
  have hnolev : Event.hotkeyFetch idx ∉ levs := by
    intro hmem
    rcases load_model_events_shape idx o _ (by rw [hl]; exact hmem)
      with hb | hb | ⟨b, hb⟩ | ⟨b, hb⟩ <;> simp at hb
  have hlevtag : ∀ e ∈ levs, ∀ j, e = Event.loadCmd j → j = idx := by
    intro e he j hj
    subst hj
    rcases load_model_events_shape idx o _ (by rw [hl]; exact he)
      with hb | hb | ⟨b, hb⟩ | ⟨b, hb⟩
    · exact Event.loadCmd.inj hb
    all_goals exact absurd hb (by simp)
  cases r with
  | failure msg =>
    dsimp only at h
    simp only [List.mem_append] at h
    rcases h with (h | h) | h
    · exact absurd h hnope
    · exact absurd h hnolev
    · exact absurd h (hnocl msg)
  | success =>
    have hsucc : (load_model idx o).1 = .success := by rw [hl]
    obtain ⟨L, hL⟩ := load_model_success_shape idx o hsucc
    rw [hl] at hL
    have hlevL : levs = L ++ [Event.loadDone idx] := hL
    cases hio : o.infoOutcome with
    | timeout =>
      rw [hio] at h
      dsimp only at h
      simp only [List.mem_append] at h
      rcases h with ((h | h) | h) | h
      · exact absurd h hnope
      · exact absurd h hnolev
      · simp at h
      · exact absurd h hnoto
    | err msg =>
      rw [hio] at h
      dsimp only at h
      simp only [List.mem_append] at h
      rcases h with ((h | h) | h) | h
      · exact absurd h hnope
      · exact absurd h hnolev
      · simp at h
      · exact absurd h (hnocl msg)
    | ok info =>
      have hAtag : ∀ e ∈ periodicEvents i idx o.periodicStateOk ++ L,
          ∀ j, e = Event.loadCmd j → j = idx := by
        intro e he j hj
        rcases List.mem_append.mp he with he | he
        · exact hpetag e he j hj
        · exact hlevtag e (by rw [hlevL]; exact List.mem_append_left _ he) j hj
      cases o.hotkeysOutcome with
      | timeout =>
        dsimp only
        refine ⟨periodicEvents i idx o.periodicStateOk ++ L, timeoutEvents i, ?_, hAtag⟩
        rw [hlevL]
        simp [List.append_assoc]
      | err msg =>
        dsimp only
        refine ⟨periodicEvents i idx o.periodicStateOk ++ L,
          classifyFailEvents i o.recheckStateOk msg, ?_, hAtag⟩
        rw [hlevL]
        simp [List.append_assoc]
      | ok hks =>
        dsimp only
        refine ⟨periodicEvents i idx o.periodicStateOk ++ L, [], ?_, hAtag⟩
        rw [hlevL]
        simp [List.append_assoc]

/-! ### Whole-run trace lemmas -/

/-- Hotkey fetches in the tail of the run belong to models at or after the
current position. -/
theorem runModels_hotkeyFetch_ge (i : Bool) (fi : Option String → String → String)
    (oracles : Nat → ModelOracle) :
    ∀ ms k j, Event.hotkeyFetch j ∈ (runModels i fi oracles k ms).2.2 → k ≤ j := by
  intro ms
  induction ms with
  | nil =>
    intro k j h
    simp [runModels] at h
  | cons m rest ih =>
    intro k j h
    simp only [runModels] at h
    rcases List.mem_append.mp h with h | h
    · have := processModel_hotkeyFetch_tag i fi k m (oracles k) j h
      omega
    · have := ih (k + 1) j h
      omega

/-- Load commands in the tail of the run belong to models at or after the
current position. -/
theorem runModels_loadCmd_ge (i : Bool) (fi : Option String → String → String)
    (oracles : Nat → ModelOracle) :
    ∀ ms k e, e ∈ (runModels i fi oracles k ms).2.2 → ∀ j, e = Event.loadCmd j → k ≤ j := by
  intro ms
  induction ms with
  | nil =>
    intro k e h
    simp [runModels] at h
  | cons m rest ih =>
    intro k e h j hj
    simp only [runModels] at h
    rcases List.mem_append.mp h with h | h
    · have := processModel_loadCmd_tag i fi k m (oracles k) e h j hj
      omega
    · have := ih (k + 1) e h j hj
      omega

/-- A hotkey fetch anywhere in the run sits immediately after its model's
load completion, and every load command before it belongs to a model at
or before it in the list. -/
theorem runModels_window (i : Bool) (fi : Option String → String → String)
    (oracles : Nat → ModelOracle) :
    ∀ ms k idx, Event.hotkeyFetch idx ∈ (runModels i fi oracles k ms).2.2 →
      ∃ A C, (runModels i fi oracles k ms).2.2
          = A ++ Event.loadDone idx :: Event.infoFetch idx :: Event.hotkeyFetch idx :: C
        ∧ ∀ e ∈ A, ∀ j, e = Event.loadCmd j → j ≤ idx := by
  intro ms
  induction ms with
  | nil =>
    intro k idx h
    simp [runModels] at h
  | cons m rest ih =>
    intro k idx h
    simp only [runModels] at h ⊢
    rcases List.mem_append.mp h with h | h
    · have hk : idx = k := processModel_hotkeyFetch_tag i fi k m (oracles k) idx h
      subst hk
      obtain ⟨A, C, hEq, hA⟩ := processModel_window i fi idx m (oracles idx) h
      refine ⟨A, C ++ (runModels i fi oracles (idx + 1) rest).2.2, ?_, ?_⟩
      · rw [hEq]
        simp [List.append_assoc]
      · intro e heA j hj
        exact le_of_eq (hA e heA j hj)
    · obtain ⟨A, C, hEq, hA⟩ := ih (k + 1) idx h
      have hge : k + 1 ≤ idx := runModels_hotkeyFetch_ge i fi oracles rest (k + 1) idx h
      refine ⟨(processModel i fi k m (oracles k)).2.2 ++ A, C, ?_, ?_⟩
      · rw [hEq]
        simp [List.append_assoc]
      · intro e heA j hj
        rcases List.mem_append.mp heA with he | he
        · have := processModel_loadCmd_tag i fi k m (oracles k) e he j hj
          omega
        · exact hA e he j hj

/-- C2: whenever the driver issues the hotkey fetch while processing model
#idx, that fetch comes strictly after model #idx's load completed — with
only the current-model info fetch in between, never a load command — and
strictly before any load command of a later model; so the hotkey list
stored in a successful entry (which is exactly the value of that fetch)
is never attributed to a different model than the one loaded. -/
theorem C2_hotkeys_in_window (I : DriverInput) (idx : Nat)
    (h : Event.hotkeyFetch idx ∈ (check_models_and_hotkeys I).trace) :
    ∃ A B C, (check_models_and_hotkeys I).trace
        = A ++ Event.loadDone idx :: (B ++ Event.hotkeyFetch idx :: C)
      ∧ (∀ j, Event.loadCmd j ∉ B)
      ∧ ∀ e ∈ A, ∀ j, idx < j → e ≠ Event.loadCmd j := by
  unfold check_models_and_hotkeys at h ⊢
  split_ifs at h ⊢
  · simp at h
  · cases hauth : I.authOutcome with
    | error msg =>
      rw [hauth] at h
      simp at h
    | ok b =>
      cases b with
      | false =>
        rw [hauth] at h
        simp at h
      | true =>
        rw [hauth] at h
        dsimp only at h ⊢
        rcases List.mem_cons.mp h with hc | h
        · exact absurd hc (by simp)
        rcases List.mem_append.mp h with h | h
        · obtain ⟨A, C, hEq, hA⟩ :=
            runModels_window I.interactive I.findIcon I.oracles (filteredModels I) 0 idx h
          refine ⟨Event.stateCheck I.initialStateOk :: A, [Event.infoFetch idx],
            C ++ [Event.close], ?_, ?_, ?_⟩
          · rw [hEq]
            simp [List.append_assoc]
          · intro j hj
            simp at hj
          · intro e he j hij heq
            rcases List.mem_cons.mp he with rfl | he
            · simp at heq
            · have := hA e he j heq
              omega
        · simp at h

/-- C2 witness oracle: a model whose load and fetches all succeed. -/
def c2Oracle : ModelOracle :=
  ⟨true, true, fun _ => .ok true, .ok ⟨none⟩, .ok [⟨"hk-1", "Wave", "TriggerAnimation"⟩], true⟩

/-- C2 witness input: a completed run over one fully successful model. -/
def c2Input : DriverInput :=
  ⟨none, true, true, .ok true, true, [⟨"ModelF", "id-f"⟩], fun _ => c2Oracle,
   fun _ _ => DEFAULT_ICON⟩

/-- Witness for C2 at a concrete run containing a hotkey fetch. -/
theorem C2_hotkeys_in_window_witness :
    Event.hotkeyFetch 0 ∈ (check_models_and_hotkeys c2Input).trace ∧
    (∃ A B C, (check_models_and_hotkeys c2Input).trace
        = A ++ Event.loadDone 0 :: (B ++ Event.hotkeyFetch 0 :: C)
      ∧ (∀ j, Event.loadCmd j ∉ B)
      ∧ ∀ e ∈ A, ∀ j, 0 < j → e ≠ Event.loadCmd j) :=
  ⟨by decide, C2_hotkeys_in_window c2Input 0 (by decide)⟩

/-- C10: every entry the driver records for a failed model (necessarily a
placeholder) keeps the model's modelID unchanged, while its modelName is
the original display name with the skip-marker suffix " (跳过)" appended —
a different string from the original — and its hotkey list is empty, so
consumers keying on modelName (such as the persisted id mapping) see a
different name for a skipped model than for the same model succeeding. -/
theorem C10_placeholder_id_and_name (i : Bool) (fi : Option String → String → String)
    (idx : Nat) (m : ModelDesc) (o : ModelOracle) (e : Entry)
    (hf : (processModel i fi idx m o).2.1 = 1)
    (he : e ∈ (processModel i fi idx m o).1) :
    e.modelID = m.modelID ∧ e.modelName = m.modelName ++ " (跳过)" ∧
    e.modelName ≠ m.modelName ∧ e.hotkeys = [] := by
  have hskip : (" (跳过)" : String).data ≠ [] := by decide
  unfold processModel at hf he
  rcases hl : load_model idx o with ⟨r, levs⟩
  rw [hl] at hf he
  cases r with
  | failure msg =>
    dsimp only at he
    simp at he
  | success =>
    cases hio : o.infoOutcome with
    | timeout =>
      rw [hio] at he
      dsimp only at he
      simp only [List.mem_singleton] at he
      subst he
      exact ⟨rfl, rfl, append_ne_self m.modelName " (跳过)" hskip, rfl⟩
    | err msg =>
      rw [hio] at he
      dsimp only at he
      simp at he
    | ok info =>
      cases hhk : o.hotkeysOutcome with
      | timeout =>
        rw [hio, hhk] at he
        dsimp only at he
        simp only [List.mem_singleton] at he
        subst he
        exact ⟨rfl, rfl, append_ne_self m.modelName " (跳过)" hskip, rfl⟩
      | err msg =>
        rw [hio, hhk] at he
        dsimp only at he
        simp at he
      | ok hks =>
        rw [hio, hhk] at hf
        dsimp only at hf
        simp at hf

/-- C10 witness oracle: the info fetch times out, producing a placeholder. -/
def c10Oracle : ModelOracle :=
  ⟨true, true, fun _ => .ok true, .timeout, .ok [], true⟩

/-- Witness for C10 at a concrete placeholder-producing block. -/
theorem C10_placeholder_id_and_name_witness :
    (processModel true (fun _ _ => DEFAULT_ICON) 0 ⟨"ModelG", "id-g"⟩ c10Oracle).2.1 = 1 ∧
    placeholder ⟨"ModelG", "id-g"⟩
      ∈ (processModel true (fun _ _ => DEFAULT_ICON) 0 ⟨"ModelG", "id-g"⟩ c10Oracle).1 ∧
    ((placeholder ⟨"ModelG", "id-g"⟩).modelID = (⟨"ModelG", "id-g"⟩ : ModelDesc).modelID ∧
     (placeholder ⟨"ModelG", "id-g"⟩).modelName
        = (⟨"ModelG", "id-g"⟩ : ModelDesc).modelName ++ " (跳过)" ∧
     (placeholder ⟨"ModelG", "id-g"⟩).modelName ≠ (⟨"ModelG", "id-g"⟩ : ModelDesc).modelName ∧
     (placeholder ⟨"ModelG", "id-g"⟩).hotkeys = []) :=
  ⟨by decide, by decide,
   C10_placeholder_id_and_name true (fun _ _ => DEFAULT_ICON) 0 ⟨"ModelG", "id-g"⟩ c10Oracle
     (placeholder ⟨"ModelG", "id-g"⟩) (by decide) (by decide)⟩

/-! ### The cooldown retry behaviour of load_model -/

/-- A cooldown-class error on a non-final attempt makes the load loop
retry, after exactly one load request for this attempt. -/
theorem loadModelGo_cooldown_step (idx a fuel : Nat) (outs : Nat → LoadAttemptOutcome)
    (msg : String) (hc : cooldownClass msg = true) (ha : outs a = .runtimeErr msg)
    (hf : fuel ≠ 0) :
    loadModelGo idx outs a (fuel + 1)
      = ((loadModelGo idx outs (a + 1) fuel).1,
         .loadCmd idx :: (loadModelGo idx outs (a + 1) fuel).2) := by
  simp only [loadModelGo]
  rw [ha]
  simp [hc, hf]

/-- The final attempt with a successful request and verification. -/
theorem loadModelGo_last_ok (idx a : Nat) (outs : Nat → LoadAttemptOutcome)
    (ha : outs a = .ok true) :
    loadModelGo idx outs a 1 = (.success, [.loadCmd idx, .infoProbe true, .loadDone idx]) := by
  rw [show (1 : Nat) = 0 + 1 from rfl]
  simp only [loadModelGo]
  rw [ha]
  simp

/-- The final attempt with a cooldown-class error re-raises it. -/
theorem loadModelGo_last_cooldown (idx a : Nat) (outs : Nat → LoadAttemptOutcome)
    (msg : String) (ha : outs a = .runtimeErr msg) :
    loadModelGo idx outs a 1 = (.failure msg, [.loadCmd idx]) := by
  rw [show (1 : Nat) = 0 + 1 from rfl]
  simp only [loadModelGo]
  rw [ha]
  simp

/-- C3 (amended): with the pre-load probe passing and a cooldown-class
error on the first two attempts, (a) success on the third attempt makes
load_model return success having issued exactly 3 load-model requests;
(b) the cooldown error on the third attempt too makes load_model fail,
still having issued exactly 3 requests, and the driver treats this as a
recoverable skip: the failure is counted, no entry is recorded for the
model (the code records placeholders only for info/hotkey read timeouts),
and a completed run never aborts — it always returns a result list. -/
theorem C3_cooldown_retry_and_skip (msg : String) (hc : cooldownClass msg = true)
    (idx : Nat) (o : ModelOracle) (hst : o.loadStateOk = true)
    (h0 : o.loadOutcomes 0 = .runtimeErr msg) (h1 : o.loadOutcomes 1 = .runtimeErr msg) :
    (o.loadOutcomes 2 = .ok true →
      (load_model idx o).1 = .success ∧ countLoadCmds (load_model idx o).2 = 3) ∧
    (o.loadOutcomes 2 = .runtimeErr msg →
      (load_model idx o).1 = .failure msg ∧ countLoadCmds (load_model idx o).2 = 3 ∧
      ∀ (i : Bool) (fi : Option String → String → String) (m : ModelDesc),
        (processModel i fi idx m o).1 = [] ∧ (processModel i fi idx m o).2.1 = 1) ∧
    (∀ I : DriverInput, I.rootFound = true → I.authOutcome = .ok true →
      (check_models_and_hotkeys I).returnValue.isSome = true) := by
  have hgo : loadModelGo idx o.loadOutcomes 0 3
      = ((loadModelGo idx o.loadOutcomes 2 1).1,
         .loadCmd idx :: .loadCmd idx :: (loadModelGo idx o.loadOutcomes 2 1).2) := by
    conv_lhs => rw [show (3 : Nat) = 2 + 1 from rfl]
    rw [loadModelGo_cooldown_step idx 0 2 o.loadOutcomes msg hc h0 (by decide)]
    conv_lhs => rw [show (2 : Nat) = 1 + 1 from rfl]
    rw [loadModelGo_cooldown_step idx 1 1 o.loadOutcomes msg hc h1 (by decide)]
  refine ⟨?_, ?_, ?_⟩
  · intro h2
    have hlast := loadModelGo_last_ok idx 2 o.loadOutcomes h2
    rw [hlast] at hgo
    constructor
    · simp [load_model, hst, hgo]
    · simp [load_model, hst, hgo, countLoadCmds, isLoadCmd]
  · intro h2
    have hlast := loadModelGo_last_cooldown idx 2 o.loadOutcomes msg h2
    rw [hlast] at hgo
    have hlm : load_model idx o
        = (.failure msg,
           [.stateCheck true, .loadCmd idx, .loadCmd idx, .loadCmd idx]) := by
      simp [load_model, hst, hgo]
    refine ⟨by rw [hlm], ?_, ?_⟩
    · rw [hlm]
      simp [countLoadCmds, isLoadCmd]
    · intro i fi m
      unfold processModel
      rw [hlm]
      exact ⟨rfl, rfl⟩
  · intro I hroot hauth
    unfold check_models_and_hotkeys
    rw [hauth]
    simp [hroot]

/-- C3 witness oracle: cooldown on the first two attempts, success on the
third. -/
def c3WOracle : ModelOracle :=
  ⟨true, true,
   fun n => if n < 2 then .runtimeErr "Cannot currently change model" else .ok true,
   .ok ⟨none⟩, .ok [], true⟩

/-- Witness for C3 at a concrete cooldown-then-success oracle. -/
theorem C3_cooldown_retry_and_skip_witness :
    cooldownClass "Cannot currently change model" = true ∧
    c3WOracle.loadStateOk = true ∧
    c3WOracle.loadOutcomes 0 = .runtimeErr "Cannot currently change model" ∧
    c3WOracle.loadOutcomes 1 = .runtimeErr "Cannot currently change model" ∧
    ((c3WOracle.loadOutcomes 2 = .ok true →
        (load_model 0 c3WOracle).1 = .success ∧
        countLoadCmds (load_model 0 c3WOracle).2 = 3) ∧
     (c3WOracle.loadOutcomes 2 = .runtimeErr "Cannot currently change model" →
        (load_model 0 c3WOracle).1 = .failure "Cannot currently change model" ∧
        countLoadCmds (load_model 0 c3WOracle).2 = 3 ∧
        ∀ (i : Bool) (fi : Option String → String → String) (m : ModelDesc),
          (processModel i fi 0 m c3WOracle).1 = [] ∧
          (processModel i fi 0 m c3WOracle).2.1 = 1) ∧
     (∀ I : DriverInput, I.rootFound = true → I.authOutcome = .ok true →
        (check_models_and_hotkeys I).returnValue.isSome = true)) :=
  ⟨by decide, by decide, by decide, by decide,
   C3_cooldown_retry_and_skip "Cannot currently change model" (by decide) 0 c3WOracle
     (by decide) (by decide) (by decide)⟩

/-- C8 (amended): a completed run closes the client after all models are
attempted — the close is the last event of the trace — and returns only
the accumulated result sequence; the succeeded/skipped counts are printed
(successful = len(results) - failed_models) but are not returned. -/
theorem C8_close_and_return (I : DriverInput) (hroot : I.rootFound = true)
    (hauth : I.authOutcome = .ok true) :
    ∃ entries : List Entry,
      (check_models_and_hotkeys I).returnValue = some entries ∧
      (check_models_and_hotkeys I).trace.getLast? = some Event.close ∧
      (check_models_and_hotkeys I).printedSuccessful
        = (entries.length : Int) - ((check_models_and_hotkeys I).failedCount : Int) := by
  unfold check_models_and_hotkeys
  rw [hauth]
  simp only [hroot, Bool.not_true, Bool.false_eq_true, if_false]
  refine ⟨(runModels I.interactive I.findIcon I.oracles 0 (filteredModels I)).1, rfl, ?_, rfl⟩
  exact List.getLast?_concat _

/-- C8 witness oracle: a model whose processing fully succeeds. -/
def c8WOracle : ModelOracle :=
  ⟨true, true, fun _ => .ok true, .ok ⟨none⟩, .ok [], true⟩

/-- C8 witness input: a completed one-model run. -/
def c8WInput : DriverInput :=
  ⟨none, true, true, .ok true, true, [⟨"ModelH", "id-h"⟩], fun _ => c8WOracle,
   fun _ _ => DEFAULT_ICON⟩

/-- Witness for the amended C8 at a concrete completed run. -/
theorem C8_close_and_return_witness :
    c8WInput.rootFound = true ∧ c8WInput.authOutcome = .ok true ∧
    (∃ entries : List Entry,
      (check_models_and_hotkeys c8WInput).returnValue = some entries ∧
      (check_models_and_hotkeys c8WInput).trace.getLast? = some Event.close ∧
      (check_models_and_hotkeys c8WInput).printedSuccessful
        = (entries.length : Int) - ((check_models_and_hotkeys c8WInput).failedCount : Int)) :=
  ⟨rfl, rfl, C8_close_and_return c8WInput rfl rfl⟩
